import Mathlib

/-!
Verification of the git-proxy push-validation core (`src/hooks.ts`,
`src/utils.ts`, `src/git-backend.ts`, `src/index.ts`).

JavaScript strings are modelled as `List Char` (`Str`).  Subprocess git
invocations are modelled by an oracle `GitExec : List Str → GitResult`
mapping the exact argument list the code passes to `git` to the result
(success flag, stdout, stderr) that invocation returned; within one run
of the hook every command is issued at most once per distinct argument
list, so a single deterministic oracle captures one execution.
-/

namespace GitProxy

/-- Strings of the embedded program: JS strings as lists of characters. -/
abbrev Str := List Char

deriving instance DecidableEq for Except

/-- Shorthand turning a Lean string literal into an embedded string. -/
def str (s : String) : Str := s.data

/-- Result of one `git` subprocess invocation (utils.ts `GitResult`,
with `success = (exitCode == 0)`). -/
structure GitResult where
  success : Bool
  stdout : Str
  stderr : Str
deriving Repr, DecidableEq

/-- Oracle for `git` subprocess calls: argument list to result. -/
abbrev GitExec := List Str → GitResult

/-- hooks.ts `RefUpdate`. -/
structure RefUpdate where
  oldSha : Str
  newSha : Str
  refName : Str
deriving Repr, DecidableEq

/-- config.ts `force_push` enum. -/
inductive ForcePushPolicy
  | deny
  | allow
deriving Repr, DecidableEq

/-- config.ts `RepoConfig` (the fields the validator reads; `upstream`
only routes the subprocess and is absorbed by the oracle). -/
structure RepoConfig where
  protected_paths : List Str
  allowed_branches : Option (List Str)
  blocked_branches : Option (List Str)
  force_push : ForcePushPolicy
  base_branch : Str
deriving Repr, DecidableEq

/-- hooks.ts `ValidationResult`. -/
structure ValidationResult where
  allowed : Bool
  message : Str
  isForcePush : Option Bool := none
deriving Repr, DecidableEq

/-- JS whitespace characters relevant to `String.prototype.trim` on the
ASCII inputs this program handles. -/
def isJsWs (c : Char) : Bool :=
  c = ' ' || c = '\n' || c = '\t' || c = '\r'

/-- JS `s.trim()`. -/
def trimStr (s : Str) : Str :=
  ((s.dropWhile isJsWs).reverse.dropWhile isJsWs).reverse

/-- JS `s.split(sep)` for a one-character separator. -/
def splitChar (sep : Char) : Str → List Str
  | [] => [[]]
  | c :: rest =>
    if c = sep then [] :: splitChar sep rest
    else
      match splitChar sep rest with
      | [] => [[c]]
      | h :: t => (c :: h) :: t

/-- JS `Array.prototype.join(sep)`. -/
def joinWith (sep : Str) : List Str → Str
  | [] => []
  | [x] => x
  | x :: y :: rest => x ++ sep ++ joinWith sep (y :: rest)

/-- JS `s.replace(pat, rep)` with a plain-string `pat`: replaces the
first occurrence only (identity when `pat` does not occur). -/
def replaceFirst (pat rep : Str) : Str → Str
  | [] => if pat.isPrefixOf ([] : Str) then rep else []
  | c :: rest =>
    if pat.isPrefixOf (c :: rest) then rep ++ (c :: rest).drop pat.length
    else c :: replaceFirst pat rep rest

/-- The all-zero object id (hooks.ts `ZERO_SHA`). -/
def zeroSha : Str := str "0000000000000000000000000000000000000000"

/-- JS `refName.startsWith("refs/heads/")`. -/
def startsHeads (s : Str) : Bool :=
  (str "refs/heads/").isPrefixOf s

/-- JS `s.replace(/^refs\x2fheads\x2f/, "")`: the anchored regex strips
one leading `refs/heads/` when present. -/
def stripHeads (s : Str) : Str :=
  if startsHeads s then s.drop (str "refs/heads/").length else s

/-- Fuel-indexed worker for `globMatch`: every alternative strictly
shrinks `p.length + s.length`, so any fuel above that sum computes the
fixpoint; the fuel only makes the recursion structural. -/
def globAux : Nat → Str → Str → Bool
  | 0, _, _ => false
  | Nat.succ fuel, [], s => s.isEmpty
  | Nat.succ fuel, a :: ps, s =>
    if a = '*' then
      match ps with
      | b :: ps' =>
        if b = '*' then
          match s with
          | [] => globAux fuel ps' []
          | c :: s' => globAux fuel ps' (c :: s') || globAux fuel (a :: b :: ps') s'
        else
          match s with
          | [] => globAux fuel (b :: ps') []
          | c :: s' =>
            globAux fuel (b :: ps') (c :: s') || (c ≠ '/' && globAux fuel (a :: b :: ps') s')
      | [] =>
        match s with
        | [] => globAux fuel [] []
        | c :: s' => globAux fuel [] (c :: s') || (c ≠ '/' && globAux fuel [a] s')
    else if a = '?' then
      match s with
      | [] => false
      | c :: s' => (c ≠ '/') && globAux fuel ps s'
    else
      match s with
      | [] => false
      | c :: s' => (a = c) && globAux fuel ps s'

/-- Modelled from the spec: `Bun.Glob#match` is a runtime builtin, not
code of this repository; §4.5 fixes its semantics — `*` matches any
run of characters other than `/`, `**` matches any run including `/`,
`?` matches one character other than `/`, other characters are literal,
and the whole pattern is anchored to the whole string. -/
def globMatch (p s : Str) : Bool := globAux (p.length + s.length + 1) p s

/-- JS `suffix.isSuffixOf`-style `s.endsWith(t)`. -/
def endsWithStr (s t : Str) : Bool := t.isSuffixOf s

/-- utils.ts `matchesAnyPattern`, body of the `patterns.some` callback
for one pattern. -/
def matchesOne (path pattern : Str) : Bool :=
  let normalizedPattern :=
    if endsWithStr pattern (str "/") && !endsWithStr pattern (str "**/") then
      pattern.dropLast ++ str "/**"
    else pattern
  globMatch normalizedPattern path ||
    (endsWithStr pattern (str "/") && globMatch pattern.dropLast path)

/-- utils.ts `matchesAnyPattern`. -/
def matchesAnyPattern (path : Str) (patterns : List Str) : Bool :=
  patterns.any (fun pattern => matchesOne path pattern)

/-- utils.ts `branchMatchesPattern`: strips a leading `refs/heads/`
again before testing the patterns. -/
def branchMatchesPattern (branch : Str) (patterns : List Str) : Bool :=
  matchesAnyPattern (stripHeads branch) patterns

/-- hooks.ts `validateBranch`. -/
def validateBranch (refName : Str) (config : RepoConfig) : ValidationResult :=
  if !startsHeads refName then
    { allowed := false
      message := str "Only branch pushes allowed (refs/heads/*), got: " ++ refName }
  else
    let branchName := stripHeads refName
    match config.allowed_branches with
    | some pats =>
      if !branchMatchesPattern branchName pats then
        { allowed := false
          message := str "Branch '" ++ branchName ++
            str "' is not in allowed list. Allowed patterns: " ++
            joinWith (str ", ") pats }
      else { allowed := true, message := str "Branch allowed" }
    | none =>
      match config.blocked_branches with
      | some pats =>
        if branchMatchesPattern branchName pats then
          { allowed := false
            message := str "Branch '" ++ branchName ++
              str "' is blocked. Blocked patterns: " ++
              joinWith (str ", ") pats }
        else { allowed := true, message := str "Branch allowed" }
      | none => { allowed := true, message := str "Branch allowed" }

/-- hooks.ts `validateForcePush`. -/
def validateForcePush (update : RefUpdate) (config : RepoConfig)
    (g : GitExec) : ValidationResult :=
  if update.oldSha = zeroSha then
    { allowed := true, message := str "New branch creation" }
  else if update.newSha = zeroSha then
    if config.force_push = ForcePushPolicy.deny then
      { allowed := false
        message := str "Branch deletion is not allowed (force_push: deny)" }
    else { allowed := true, message := str "Branch deletion allowed" }
  else
    let result := g [str "merge-base", str "--is-ancestor", update.oldSha, update.newSha]
    if !result.success then
      if config.force_push = ForcePushPolicy.deny then
        { allowed := false
          message := str "Force push detected and not allowed. Old: " ++
            update.oldSha.take 8 ++ str ", New: " ++ update.newSha.take 8 }
      else
        { allowed := true, message := str "Force push allowed", isForcePush := some true }
    else
      { allowed := true, message := str "Push is fast-forward", isForcePush := some false }

/-- hooks.ts `checkChangedFiles`. -/
def checkChangedFiles (diffOutput : Str) (protectedPaths : List Str) : ValidationResult :=
  let changedFiles := (splitChar '\n' (trimStr diffOutput)).filter (fun f => f.length > 0)
  let violations := changedFiles.filter (fun file => matchesAnyPattern file protectedPaths)
  if violations.length > 0 then
    { allowed := false
      message := str "Changes to protected paths detected:\n" ++
        joinWith (str "\n") (violations.map (fun v => str "  - " ++ v)) }
  else { allowed := true, message := str "No protected path violations" }

/-- hooks.ts `validateProtectedPaths`. -/
def validateProtectedPaths (update : RefUpdate) (config : RepoConfig)
    (g : GitExec) : ValidationResult :=
  if config.protected_paths.length = 0 then
    { allowed := true, message := str "No protected paths configured" }
  else if update.newSha = zeroSha then
    { allowed := true, message := str "Branch deletion - no path check needed" }
  else
    let baseBranch := str "origin/" ++ config.base_branch
    let baseCheck := g [str "rev-parse", str "--verify", baseBranch]
    if !baseCheck.success then
      { allowed := false
        message := str "Base branch " ++ baseBranch ++
          str " not found. Cannot validate protected paths." }
    else
      let newCommitsResult := g [str "rev-list", update.newSha, str "--not", baseBranch]
      if !newCommitsResult.success then
        { allowed := false
          message := str "Failed to get new commits: " ++ newCommitsResult.stderr }
      else
        let newCommits :=
          (splitChar '\n' (trimStr newCommitsResult.stdout)).filter (fun c => c.length > 0)
        if newCommits.length = 0 then
          { allowed := true, message := str "No new commits to check" }
        else
          let diffResult := g [str "diff", str "--name-only", baseBranch, update.newSha]
          if !diffResult.success then
            { allowed := false
              message := str "Failed to get diff: " ++ diffResult.stderr }
          else checkChangedFiles diffResult.stdout config.protected_paths

/-- hooks.ts `checkUpstreamDivergence`. -/
def checkUpstreamDivergence (update : RefUpdate) (g : GitExec) : ValidationResult :=
  if update.oldSha = zeroSha then
    { allowed := true, message := str "New branch - no divergence check" }
  else
    let remoteRef :=
      replaceFirst (str "refs/heads/") (str "refs/remotes/origin/") update.refName
    let result := g [str "rev-parse", str "--verify", remoteRef]
    if !result.success then
      { allowed := true, message := str "Remote branch doesn't exist yet" }
    else
      let remoteSha := trimStr result.stdout
      if remoteSha ≠ update.oldSha then
        { allowed := false
          message := str "Upstream has diverged. Expected: " ++ update.oldSha.take 8 ++
            str ", Actual: " ++ remoteSha.take 8 ++ str ". Please fetch and rebase." }
      else { allowed := true, message := str "Upstream in sync" }

/-- Argument list of the hooks.ts `pushToUpstream` git invocation. -/
def pushArgs (update : RefUpdate) (forcePush : Bool) : List Str :=
  let branchName := stripHeads update.refName
  if update.newSha = zeroSha then
    [str "push", str "origin", str "--delete", branchName]
  else if forcePush then
    [str "push", str "--force", str "origin",
      update.newSha ++ str ":refs/heads/" ++ branchName]
  else
    [str "push", str "origin", update.newSha ++ str ":refs/heads/" ++ branchName]

/-- hooks.ts `pushToUpstream` (the environment surgery only routes the
subprocess and is absorbed by the oracle). -/
def pushToUpstream (update : RefUpdate) (forcePush : Bool) (g : GitExec) : ValidationResult :=
  let result := g (pushArgs update forcePush)
  if !result.success then
    { allowed := false, message := str "Failed to push to upstream:\n" ++ result.stderr }
  else { allowed := true, message := str "Successfully pushed to upstream" }

/-- hooks.ts `PreReceiveContext` (repoPath and sshEnv only route the
subprocess and are absorbed by the oracle). -/
structure PreReceiveContext where
  repoConfig : RepoConfig
  gitExec : GitExec

/-- An entry of hooks.ts `validatedUpdates`. -/
structure ValidatedUpdate where
  update : RefUpdate
  isForcePush : Bool
deriving Repr, DecidableEq

/-- One Pass-1 iteration of hooks.ts `validateAndPush`: the four checks
in order, with `continue` on the first failed check modelled as
`Except.error` carrying that check's message. -/
def validateOne (update : RefUpdate) (config : RepoConfig)
    (g : GitExec) : Except Str ValidatedUpdate :=
  let branchResult := validateBranch update.refName config
  if !branchResult.allowed then Except.error branchResult.message
  else
    let forcePushResult := validateForcePush update config g
    if !forcePushResult.allowed then Except.error forcePushResult.message
    else
      let isForcePush := forcePushResult.isForcePush.getD false
      let divergenceGate : Except Str Unit :=
        if !isForcePush then
          let divergenceResult := checkUpstreamDivergence update g
          if !divergenceResult.allowed then Except.error divergenceResult.message
          else Except.ok ()
        else Except.ok ()
      match divergenceGate with
      | Except.error m => Except.error m
      | Except.ok _ =>
        let pathResult := validateProtectedPaths update config g
        if !pathResult.allowed then Except.error pathResult.message
        else Except.ok { update := update, isForcePush := isForcePush }

/-- Pass 1 of hooks.ts `validateAndPush`: errors and accepted updates,
each in input order. -/
def passOne (updates : List RefUpdate) (config : RepoConfig)
    (g : GitExec) : List Str × List ValidatedUpdate :=
  match updates with
  | [] => ([], [])
  | u :: rest =>
    let tail := passOne rest config g
    match validateOne u config g with
    | Except.error m => (m :: tail.1, tail.2)
    | Except.ok v => (tail.1, v :: tail.2)

/-- hooks.ts `formatRejectionMessage` (the source's local `separator`
constant, `"=".repeat(50)`, is inlined). -/
def formatRejectionMessage (errors : List Str) : Str :=
  joinWith (str "\n")
    ([[], List.replicate 50 '=', str "PUSH REJECTED", List.replicate 50 '='] ++
      errors ++ [List.replicate 50 '=', []])

/-- Record of one `pushToUpstream` invocation Pass 2 actually made,
with the result the oracle returned for it. -/
structure PushCall where
  update : RefUpdate
  isForcePush : Bool
  result : GitResult
deriving Repr, DecidableEq

/-- Pass 2 of hooks.ts `validateAndPush`: forward each accepted update
in order, stopping at the first failed push.  Also returns the trace of
push invocations made. -/
def passTwo (g : GitExec) : List ValidatedUpdate → ValidationResult × List PushCall
  | [] =>
    ({ allowed := true, message := str "All refs validated and pushed successfully" }, [])
  | v :: rest =>
    if !(pushToUpstream v.update v.isForcePush g).allowed then
      ({ allowed := false
         message := formatRejectionMessage [(pushToUpstream v.update v.isForcePush g).message] },
        [{ update := v.update, isForcePush := v.isForcePush
           result := g (pushArgs v.update v.isForcePush) }])
    else
      ((passTwo g rest).1,
        { update := v.update, isForcePush := v.isForcePush
          result := g (pushArgs v.update v.isForcePush) } :: (passTwo g rest).2)

/-- hooks.ts `validateAndPush`, paired with the trace of upstream push
invocations it performed. -/
def validateAndPush (updates : List RefUpdate) (ctx : PreReceiveContext) :
    ValidationResult × List PushCall :=
  if (passOne updates ctx.repoConfig ctx.gitExec).1.length > 0 then
    ({ allowed := false
       message := formatRejectionMessage (passOne updates ctx.repoConfig ctx.gitExec).1 }, [])
  else passTwo ctx.gitExec (passOne updates ctx.repoConfig ctx.gitExec).2

/-- The push invocations of a trace that took effect on upstream: the
ones whose `git push` exited 0. -/
def effectedPushes (calls : List PushCall) : List PushCall :=
  calls.filter (fun c => c.result.success)

/-- hooks.ts `parsePreReceiveInput`, body of the `.map` callback; the
thrown `Error` is modelled as `Except.error` with its message.  JS
falsiness of `parts[i]` covers both a missing field (`undefined`) and
an empty one. -/
def parseLine (line : Str) : Except Str RefUpdate :=
  let parts := splitChar ' ' line
  let oldSha := parts.getD 0 []
  let newSha := parts.getD 1 []
  let refName := parts.getD 2 []
  if oldSha = [] || newSha = [] || refName = [] then
    Except.error (str "Invalid pre-receive input line: " ++ line)
  else Except.ok { oldSha := oldSha, newSha := newSha, refName := refName }

/-- hooks.ts `parsePreReceiveInput`. -/
def parsePreReceiveInput (input : Str) : Except Str (List RefUpdate) :=
  ((splitChar '\n' (trimStr input)).filter (fun line => line.length > 0)).mapM parseLine

/-- Outcome of one run of index.ts `runPreReceiveHook` (after config
loading): normal exit 0, exit 1 with the rejection on stderr, or an
uncaught exception (abnormal termination with a diagnostic). -/
inductive HookOutcome
  | exitOk
  | exitReject (message : Str)
  | abort (diagnostic : Str)
deriving Repr, DecidableEq

/-- index.ts `runPreReceiveHook`, from the point where stdin has been
read: empty or whitespace-only stdin exits 0 before parsing; a parse
error aborts; otherwise the validator decides the exit. -/
def runPreReceiveHookCore (stdin : Str) (ctx : PreReceiveContext) : HookOutcome :=
  if trimStr stdin = [] then HookOutcome.exitOk
  else
    match parsePreReceiveInput stdin with
    | Except.error e => HookOutcome.abort e
    | Except.ok updates =>
      let result := (validateAndPush updates ctx).1
      if !result.allowed then HookOutcome.exitReject result.message
      else HookOutcome.exitOk

/-- git-backend.ts `parseCgiResponse` separator scan: the loop over
`i < output.length - 1` checking for CRLFCRLF (undefined-safe lookahead
to `i + 3`) then LFLF at each position, returning the first match as
(index, separator length).  Bytes are modelled as characters; the
header section of a CGI response is ASCII, where UTF-8 decoding is the
identity. -/
def scanSep : Str → Option (Nat × Nat)
  | [] => none
  | [_] => none
  | a :: b :: rest =>
    if a = '\r' && b = '\n' && rest.take 2 = str "\r\n" then some (0, 4)
    else if a = '\n' && b = '\n' then some (0, 2)
    else (scanSep (b :: rest)).map (fun p => (p.1 + 1, p.2))

/-- JS `headerText.split(/\r?\n/)`. -/
def splitLinesRN : Str → List Str
  | [] => [[]]
  | '\r' :: '\n' :: rest => [] :: splitLinesRN rest
  | '\n' :: rest => [] :: splitLinesRN rest
  | c :: rest =>
    match splitLinesRN rest with
    | [] => [[c]]
    | h :: t => (c :: h) :: t

/-- JS `line.indexOf(c)` for a single character, as an `Option`. -/
def indexOfChar (c : Char) : Str → Option Nat
  | [] => none
  | x :: rest =>
    if x = c then some 0 else (indexOfChar c rest).map (fun i => i + 1)

/-- JS `s.toLowerCase()` on the ASCII header names this code sees. -/
def toLowerStr (s : Str) : Str := s.map Char.toLower

/-- JS `parseInt(s, 10)`: skips leading whitespace, optional sign, then
takes the longest run of decimal digits; `none` models `NaN`. -/
def jsParseInt (s : Str) : Option Int :=
  let t := s.dropWhile isJsWs
  let (sign, digitsPart) : Int × Str :=
    match t with
    | '-' :: rest => (-1, rest)
    | '+' :: rest => (1, rest)
    | _ => (1, t)
  let digits := digitsPart.takeWhile Char.isDigit
  if digits = [] then none
  else some (sign * Int.ofNat (digits.foldl (fun n c => 10 * n + (c.toNat - 48)) 0))

/-- JS `Headers.set`: overwrite an existing entry (names are already
lower-cased by the caller), else append. -/
def headersSet (hs : List (Str × Str)) (name value : Str) : List (Str × Str) :=
  if hs.any (fun p => p.1 = name) then
    hs.map (fun p => if p.1 = name then (p.1, value) else p)
  else hs ++ [(name, value)]

/-- git-backend.ts `CgiResponse`; `status = none` models the `NaN` a
non-numeric `Status` code would produce. -/
structure CgiResponse where
  status : Option Int
  statusText : Str
  headers : List (Str × Str)
  body : Str
deriving Repr, DecidableEq

/-- One iteration of the header-line loop in `parseCgiResponse`,
folding over (status, statusText, headers). -/
def processHeaderLine (acc : Option Int × Str × List (Str × Str)) (line : Str) :
    Option Int × Str × List (Str × Str) :=
  if line.length = 0 then acc
  else
    match indexOfChar ':' line with
    | none => acc
    | some colonIndex =>
      let name := toLowerStr (trimStr (line.take colonIndex))
      let value := trimStr (line.drop (colonIndex + 1))
      if name = str "status" then
        let parts := splitChar ' ' value
        let statusCode := parts.getD 0 []
        let status := if statusCode ≠ [] then jsParseInt statusCode else acc.1
        let restJoined := joinWith (str " ") (parts.drop 1)
        let statusText := if restJoined = [] then str "OK" else restJoined
        (status, statusText, acc.2.2)
      else (acc.1, acc.2.1, headersSet acc.2.2 name value)

/-- Specification-side description of a separator occurrence: at index
`i` the output carries CRLFCRLF (length 4) or, failing that, LFLF
(length 2). -/
def sepSpecAt (s : Str) (i : Nat) : Option Nat :=
  if (s.drop i).take 4 = str "\r\n\r\n" then some 4
  else if (s.drop i).take 2 = str "\n\n" then some 2
  else none

/-- Whether a header line would be treated as a `Status` header by
`processHeaderLine`: non-empty, has a colon, and the trimmed
lower-cased name is `status`. -/
def lineIsStatus (line : Str) : Bool :=
  line.length ≠ 0 &&
    (match indexOfChar ':' line with
     | none => false
     | some i => toLowerStr (trimStr (line.take i)) = str "status")

/-- git-backend.ts `parseCgiResponse`. -/
def parseCgiResponse (output : Str) : CgiResponse :=
  let sep : Nat × Nat :=
    match scanSep output with
    | some p => p
    | none => (output.length, 0)
  let headerBytes := output.take sep.1
  let bodyBytes := output.drop (sep.1 + sep.2)
  let headerLines := splitLinesRN headerBytes
  let folded := headerLines.foldl processHeaderLine (some 200, str "OK", [])
  { status := folded.1, statusText := folded.2.1, headers := folded.2.2, body := bodyBytes }

/-- Parsing applied by `validateProtectedPaths` and `checkChangedFiles`
to git stdout: trim, split on newline, drop empty lines. -/
def nonEmptyLines (out : Str) : List Str :=
  (splitChar '\n' (trimStr out)).filter (fun l => l.length > 0)

/-! Concrete inputs used by counterexamples and witnesses. -/

def shaA : Str := str "aaaaaaaaaaaaaaaaaaaaaaaaaaaaaaaaaaaaaaaa"

def shaB : Str := str "bbbbbbbbbbbbbbbbbbbbbbbbbbbbbbbbbbbbbbbb"

/-- Third sha, distinct from `shaA` and `shaB`. -/
def shaC : Str := str "cccccccccccccccccccccccccccccccccccccccc"

/-- A creation update for branch `alpha`. -/
def updA : RefUpdate := { oldSha := zeroSha, newSha := shaA, refName := str "refs/heads/alpha" }

/-- A creation update for branch `beta`. -/
def updB : RefUpdate := { oldSha := zeroSha, newSha := shaB, refName := str "refs/heads/beta" }

/-- A tag-push update, which fails branch admission. -/
def updTag : RefUpdate := { oldSha := shaA, newSha := shaB, refName := str "refs/tags/v1.0" }

/-- Fast-forward update used by several witnesses. -/
def updFF : RefUpdate := { oldSha := shaA, newSha := shaB, refName := str "refs/heads/feature" }

/-- A both-zero update on branch main. -/
def updZZ : RefUpdate := { oldSha := zeroSha, newSha := zeroSha, refName := str "refs/heads/main" }

/-- A policy that admits every branch (empty blocked list, as the
config loader requires exactly one branch list to be present). -/
def cfgNoPolicy : RepoConfig :=
  { protected_paths := [], allowed_branches := none, blocked_branches := some []
    force_push := ForcePushPolicy.deny, base_branch := str "main" }

/-- Oracle for the C1 counterexample: the upstream accepts the push of
`updA` and rejects the push of `updB`. -/
def gC1 : GitExec := fun args =>
  if args = pushArgs updB false then { success := false, stdout := [], stderr := str "remote rejected" }
  else { success := true, stdout := [], stderr := [] }

def ctxC1 : PreReceiveContext := { repoConfig := cfgNoPolicy, gitExec := gC1 }

/-- Oracle on which every git command succeeds with empty output. -/
def gAllOk : GitExec := fun _ => { success := true, stdout := [], stderr := [] }

def ctxTag : PreReceiveContext := { repoConfig := cfgNoPolicy, gitExec := gAllOk }

/-- Oracle for the C6 witness: the mirror's view of origin/feature is
`shaC`, which differs from the update's old sha `shaA`. -/
def gDiv : GitExec := fun args =>
  if args = [str "rev-parse", str "--verify", str "refs/remotes/origin/feature"] then
    { success := true, stdout := shaC ++ str "\n", stderr := [] }
  else { success := true, stdout := [], stderr := [] }

/-- A ref for a branch literally named `refs/heads/x` (legal in git):
the fully qualified ref is `refs/heads/refs/heads/x`. -/
def refNested : Str := str "refs/heads/refs/heads/x"

/-- A policy allowing exactly the branch named `refs/heads/x`. -/
def cfgNested : RepoConfig :=
  { protected_paths := [], allowed_branches := some [str "refs/heads/x"]
    blocked_branches := none, force_push := ForcePushPolicy.deny, base_branch := str "main" }

/-- A policy protecting `secret.txt`, admitting every branch. -/
def cfgProt : RepoConfig :=
  { protected_paths := [str "secret.txt"], allowed_branches := none
    blocked_branches := some [], force_push := ForcePushPolicy.deny
    base_branch := str "main" }

/-- Oracle for the C5 witness: one new commit relative to origin/main,
and a net diff touching `secret.txt` and `README.md`. -/
def gProt : GitExec := fun args =>
  if args = [str "rev-list", shaB, str "--not", str "origin/main"] then
    { success := true, stdout := shaB ++ str "\n", stderr := [] }
  else if args = [str "diff", str "--name-only", str "origin/main", shaB] then
    { success := true, stdout := str "secret.txt\nREADME.md\n", stderr := [] }
  else { success := true, stdout := [], stderr := [] }

/-- A CGI child output with one header, no Status header, and a body. -/
def cgiNoStatus : Str := str "Content-Type: text/plain\r\n\r\nhello"

/-! Supporting lemmas. -/

theorem pushToUpstream_allowed (u : RefUpdate) (f : Bool) (g : GitExec) :
    (pushToUpstream u f g).allowed = (g (pushArgs u f)).success := by
  unfold pushToUpstream
  cases h : (g (pushArgs u f)).success <;> simp [h]

theorem passOne_fst (updates : List RefUpdate) (cfg : RepoConfig) (g : GitExec) :
    (passOne updates cfg g).1 = updates.filterMap (fun u =>
      match validateOne u cfg g with
      | Except.error m => some m
      | Except.ok _ => none) := by
  induction updates with
  | nil => rfl
  | cons u rest ih =>
    rw [passOne, List.filterMap_cons]
    cases h : validateOne u cfg g <;> simp [h, ih]

theorem passOne_fst_ne_nil (updates : List RefUpdate) (cfg : RepoConfig) (g : GitExec)
    (h : ∃ u ∈ updates, (validateOne u cfg g).toOption = none) :
    (passOne updates cfg g).1 ≠ [] := by
  induction updates with
  | nil => simp at h
  | cons u rest ih =>
    rw [passOne]
    rcases h with ⟨w, hw, hwo⟩
    rcases List.mem_cons.mp hw with hw | hw
    · subst hw
      cases hvo : validateOne w cfg g with
      | error m => simp [hvo]
      | ok v => rw [hvo] at hwo; simp [Except.toOption] at hwo
    · cases hvo : validateOne u cfg g with
      | error m => simp [hvo]
      | ok v => simpa [hvo] using ih ⟨w, hw, hwo⟩

theorem joinWith_append (sep : Str) (xs ys : List Str) (hx : xs ≠ []) (hy : ys ≠ []) :
    joinWith sep (xs ++ ys) = joinWith sep xs ++ sep ++ joinWith sep ys := by
  induction xs with
  | nil => cases hx rfl
  | cons x xs ih =>
    cases xs with
    | nil =>
      cases ys with
      | nil => cases hy rfl
      | cons y ys => simp [joinWith]
    | cons x2 xs2 =>
      have : (x :: x2 :: xs2) ++ ys = x :: (x2 :: (xs2 ++ ys)) := by simp
      rw [this, joinWith]
      have h2 : (x2 :: xs2) ++ ys = x2 :: (xs2 ++ ys) := by simp
      rw [show x2 :: (xs2 ++ ys) = (x2 :: xs2) ++ ys from rfl,
        ih (by simp), joinWith]
      simp [List.append_assoc]

theorem formatRejectionMessage_eq (errors : List Str) (h : errors ≠ []) :
    formatRejectionMessage errors =
      str "\n" ++ List.replicate 50 '=' ++ str "\nPUSH REJECTED\n" ++
      List.replicate 50 '=' ++ str "\n" ++ joinWith (str "\n") errors ++
      str "\n" ++ List.replicate 50 '=' ++ str "\n" := by
  unfold formatRejectionMessage
  rw [List.append_assoc,
    joinWith_append (str "\n")
      [[], List.replicate 50 '=', str "PUSH REJECTED", List.replicate 50 '=']
      (errors ++ [List.replicate 50 '=', []]) (by simp) (by simp),
    joinWith_append (str "\n") errors [List.replicate 50 '=', []] h (by simp)]
  have hpr : (str "\n" ++ (str "PUSH REJECTED" ++ str "\n") : Str) = str "\nPUSH REJECTED\n" := by
    decide
  simp only [joinWith, List.nil_append, List.append_assoc, List.append_nil]
  rw [← hpr]
  simp [List.append_assoc]

theorem passTwo_allowed_false (g : GitExec) (vs : List ValidatedUpdate)
    (h : (passTwo g vs).1.allowed = false) :
    ∃ calls last, (passTwo g vs).2 = calls ++ [last] ∧
      (∀ c ∈ calls, c.result.success = true) ∧ last.result.success = false := by
  induction vs with
  | nil => simp [passTwo] at h
  | cons v rest ih =>
    rw [passTwo] at h ⊢
    cases hs : (g (pushArgs v.update v.isForcePush)).success with
    | false =>
      have hall : (pushToUpstream v.update v.isForcePush g).allowed = false := by
        rw [pushToUpstream_allowed, hs]
      refine ⟨[],
        { update := v.update, isForcePush := v.isForcePush,
          result := g (pushArgs v.update v.isForcePush) }, ?_, by simp, by simp [hs]⟩
      simp [hall]
    | true =>
      have hall : (pushToUpstream v.update v.isForcePush g).allowed = true := by
        rw [pushToUpstream_allowed, hs]
      rw [hall] at h ⊢
      simp only [Bool.not_true, Bool.false_eq_true, if_false] at h ⊢
      rcases ih h with ⟨calls, last, h2, hcalls, hlast⟩
      refine ⟨{ update := v.update, isForcePush := v.isForcePush,
                result := g (pushArgs v.update v.isForcePush) } :: calls,
        last, by simp [h2], ?_, hlast⟩
      intro c hc
      rcases List.mem_cons.mp hc with hc | hc
      · subst hc; simpa using hs
      · exact hcalls c hc

/-- C1 counterexample: a two-update batch in which both updates pass
Pass-1 validation, the Pass-2 push of the first update succeeds on
upstream, and the push of the second fails.  `validate_and_push`
terminates with allowed=false, yet a push of the attempt has taken
effect on upstream — refuting the claim that allowed=false implies no
ref update of the attempt is applied upstream. -/
theorem c1_pass2_failure_counterexample :
    (validateAndPush [updA, updB] ctxC1).1.allowed = false ∧
    effectedPushes (validateAndPush [updA, updB] ctxC1).2 ≠ [] ∧
    (effectedPushes (validateAndPush [updA, updB] ctxC1).2).map
      (fun c => c.update) = [updA] := by
  decide

/-- C1 (amended): when `validate_and_push` terminates with
allowed=false, either the failure arose in Pass 1 and no upstream push
was invoked at all, or it arose in Pass 2, in which case forwarding
stopped at the first failing push: the trace ends with the failing
invocation and every earlier invocation of the attempt succeeded (and
so remains applied on upstream). -/
theorem c1_allowed_false_push_trace (updates : List RefUpdate) (ctx : PreReceiveContext)
    (h : (validateAndPush updates ctx).1.allowed = false) :
    ((validateAndPush updates ctx).2 = [] ∧
      (passOne updates ctx.repoConfig ctx.gitExec).1 ≠ []) ∨
    (∃ calls last, (validateAndPush updates ctx).2 = calls ++ [last] ∧
      (∀ c ∈ calls, c.result.success = true) ∧ last.result.success = false) := by
  unfold validateAndPush at h ⊢
  by_cases he : (passOne updates ctx.repoConfig ctx.gitExec).1.length > 0
  · left
    rw [if_pos he]
    exact ⟨rfl, by intro hnil; rw [hnil] at he; simp at he⟩
  · right
    rw [if_neg he] at h ⊢
    exact passTwo_allowed_false _ _ h

/-- C1 witness: the amended theorem applied to the counterexample
input, where the Pass-2 branch of the disjunction holds. -/
theorem c1_allowed_false_push_trace_witness :
    ((validateAndPush [updA, updB] ctxC1).2 = [] ∧
      (passOne [updA, updB] ctxC1.repoConfig ctxC1.gitExec).1 ≠ []) ∨
    (∃ calls last, (validateAndPush [updA, updB] ctxC1).2 = calls ++ [last] ∧
      (∀ c ∈ calls, c.result.success = true) ∧ last.result.success = false) :=
  c1_allowed_false_push_trace [updA, updB] ctxC1 (by decide)

/-- C2: if any update fails Pass-1 validation, `validate_and_push`
returns allowed=false with no upstream push invoked; validation does
not short-circuit — the collected errors are exactly the failing
updates' messages in input order — and the returned message is the §7
envelope: empty line, 50 `=`, `PUSH REJECTED`, 50 `=`, the errors, 50
`=`, trailing empty line, joined by newlines. -/
theorem c2_pass1_gate (updates : List RefUpdate) (ctx : PreReceiveContext)
    (h : ∃ u ∈ updates, (validateOne u ctx.repoConfig ctx.gitExec).toOption = none) :
    (validateAndPush updates ctx).1.allowed = false ∧
    (validateAndPush updates ctx).2 = [] ∧
    (passOne updates ctx.repoConfig ctx.gitExec).1 = updates.filterMap (fun u =>
      match validateOne u ctx.repoConfig ctx.gitExec with
      | Except.error m => some m
      | Except.ok _ => none) ∧
    (validateAndPush updates ctx).1.message =
      str "\n" ++ List.replicate 50 '=' ++ str "\nPUSH REJECTED\n" ++
      List.replicate 50 '=' ++ str "\n" ++
      joinWith (str "\n") (passOne updates ctx.repoConfig ctx.gitExec).1 ++
      str "\n" ++ List.replicate 50 '=' ++ str "\n" := by
  have hne : (passOne updates ctx.repoConfig ctx.gitExec).1 ≠ [] :=
    passOne_fst_ne_nil updates ctx.repoConfig ctx.gitExec h
  have hlen : (passOne updates ctx.repoConfig ctx.gitExec).1.length > 0 :=
    List.length_pos.mpr hne
  unfold validateAndPush
  rw [if_pos hlen]
  exact ⟨rfl, rfl, passOne_fst updates ctx.repoConfig ctx.gitExec,
    formatRejectionMessage_eq _ hne⟩

/-- C2 witness: the theorem applied to a batch containing a tag push,
which fails Pass-1 branch admission. -/
theorem c2_pass1_gate_witness :
    (validateAndPush [updTag] ctxTag).1.allowed = false ∧
    (validateAndPush [updTag] ctxTag).2 = [] ∧
    (passOne [updTag] ctxTag.repoConfig ctxTag.gitExec).1 = [updTag].filterMap (fun u =>
      match validateOne u ctxTag.repoConfig ctxTag.gitExec with
      | Except.error m => some m
      | Except.ok _ => none) ∧
    (validateAndPush [updTag] ctxTag).1.message =
      str "\n" ++ List.replicate 50 '=' ++ str "\nPUSH REJECTED\n" ++
      List.replicate 50 '=' ++ str "\n" ++
      joinWith (str "\n") (passOne [updTag] ctxTag.repoConfig ctxTag.gitExec).1 ++
      str "\n" ++ List.replicate 50 '=' ++ str "\n" :=
  c2_pass1_gate [updTag] ctxTag (by decide)

theorem validateForcePush_create (u : RefUpdate) (cfg : RepoConfig) (g : GitExec)
    (h : u.oldSha = zeroSha) :
    validateForcePush u cfg g = { allowed := true, message := str "New branch creation" } := by
  simp [validateForcePush, h]

theorem checkUpstreamDivergence_create (u : RefUpdate) (g : GitExec)
    (h : u.oldSha = zeroSha) :
    checkUpstreamDivergence u g =
      { allowed := true, message := str "New branch - no divergence check" } := by
  simp [checkUpstreamDivergence, h]

theorem stripHeads_eq_drop (s : Str) (h : startsHeads s = true) :
    stripHeads s = s.drop 11 := by
  have h11 : (str "refs/heads/").length = 11 := by decide
  simp [stripHeads, h, h11]

theorem replaceFirst_heads (rep s : Str) (h : startsHeads s = true) :
    replaceFirst (str "refs/heads/") rep s = rep ++ s.drop 11 := by
  cases s with
  | nil => exact absurd h (by decide)
  | cons c rest =>
    have hp : (str "refs/heads/").isPrefixOf (c :: rest) = true := h
    have h11 : (str "refs/heads/").length = 11 := by decide
    rw [replaceFirst, if_pos hp, h11]

theorem remoteRef_eq (s : Str) (h : startsHeads s = true) :
    replaceFirst (str "refs/heads/") (str "refs/remotes/origin/") s =
      str "refs/remotes/origin/" ++ stripHeads s := by
  rw [replaceFirst_heads _ _ h, stripHeads_eq_drop _ h]

/-- C3: for a non-create update, classification and outcome of the
force-push check.  Non-zero old and new: `merge-base --is-ancestor`
exit 0 means fast-forward (accepted, is_force_push = false); non-zero
exit means force-update, rejected with the short-oid message under
`force_push = deny` and otherwise accepted with is_force_push = true.
Delete (new = zero, old non-zero, since a zero old is classified as
create first): rejected exactly under `force_push = deny`. -/
theorem c3_force_push_classification (u : RefUpdate) (cfg : RepoConfig) (g : GitExec)
    (h1 : u.oldSha ≠ zeroSha) :
    (u.newSha ≠ zeroSha →
      ((g [str "merge-base", str "--is-ancestor", u.oldSha, u.newSha]).success = true →
        validateForcePush u cfg g =
          { allowed := true, message := str "Push is fast-forward", isForcePush := some false }) ∧
      ((g [str "merge-base", str "--is-ancestor", u.oldSha, u.newSha]).success = false →
        (cfg.force_push = ForcePushPolicy.deny →
          validateForcePush u cfg g =
            { allowed := false
              message := str "Force push detected and not allowed. Old: " ++
                u.oldSha.take 8 ++ str ", New: " ++ u.newSha.take 8 }) ∧
        (cfg.force_push = ForcePushPolicy.allow →
          validateForcePush u cfg g =
            { allowed := true, message := str "Force push allowed", isForcePush := some true }))) ∧
    (u.newSha = zeroSha →
      (cfg.force_push = ForcePushPolicy.deny →
        validateForcePush u cfg g =
          { allowed := false, message := str "Branch deletion is not allowed (force_push: deny)" }) ∧
      (cfg.force_push = ForcePushPolicy.allow →
        validateForcePush u cfg g =
          { allowed := true, message := str "Branch deletion allowed" })) := by
  constructor
  · intro h2
    constructor
    · intro hs
      simp [validateForcePush, h1, h2, hs]
    · intro hs
      constructor
      · intro hd
        simp [validateForcePush, h1, h2, hs, hd]
      · intro ha
        simp [validateForcePush, h1, h2, hs, ha]
  · intro h2
    constructor
    · intro hd
      simp [validateForcePush, h1, h2, hd]
    · intro ha
      simp [validateForcePush, h1, h2, ha]

/-- C3 witness: the theorem at a concrete non-create update; with the
all-success oracle the merge-base probe exits 0, so the fast-forward
branch applies. -/
theorem c3_force_push_classification_witness :
    ((updFF.newSha ≠ zeroSha →
      ((gAllOk [str "merge-base", str "--is-ancestor", updFF.oldSha, updFF.newSha]).success = true →
        validateForcePush updFF cfgNoPolicy gAllOk =
          { allowed := true, message := str "Push is fast-forward", isForcePush := some false }) ∧
      ((gAllOk [str "merge-base", str "--is-ancestor", updFF.oldSha, updFF.newSha]).success = false →
        (cfgNoPolicy.force_push = ForcePushPolicy.deny →
          validateForcePush updFF cfgNoPolicy gAllOk =
            { allowed := false
              message := str "Force push detected and not allowed. Old: " ++
                updFF.oldSha.take 8 ++ str ", New: " ++ updFF.newSha.take 8 }) ∧
        (cfgNoPolicy.force_push = ForcePushPolicy.allow →
          validateForcePush updFF cfgNoPolicy gAllOk =
            { allowed := true, message := str "Force push allowed", isForcePush := some true }))) ∧
    (updFF.newSha = zeroSha →
      (cfgNoPolicy.force_push = ForcePushPolicy.deny →
        validateForcePush updFF cfgNoPolicy gAllOk =
          { allowed := false, message := str "Branch deletion is not allowed (force_push: deny)" }) ∧
      (cfgNoPolicy.force_push = ForcePushPolicy.allow →
        validateForcePush updFF cfgNoPolicy gAllOk =
          { allowed := true, message := str "Branch deletion allowed" }))) :=
  c3_force_push_classification updFF cfgNoPolicy gAllOk (by decide)

/-- C6: the divergence check returns accept immediately for a create
(old = zero); for any other branch update it accepts when
`rev-parse --verify refs/remotes/origin/<branch>` fails, rejects with
the short-oid message exactly when its (trimmed) output differs from
old, and accepts when they agree; and an update tagged is_force_push
skips the divergence check entirely — `validateOne` is then decided by
the protected-path check alone. -/
theorem c6_divergence (u : RefUpdate) (cfg : RepoConfig) (g : GitExec) :
    (u.oldSha = zeroSha →
      checkUpstreamDivergence u g =
        { allowed := true, message := str "New branch - no divergence check" }) ∧
    (u.oldSha ≠ zeroSha → startsHeads u.refName = true →
      ((g [str "rev-parse", str "--verify",
          str "refs/remotes/origin/" ++ stripHeads u.refName]).success = false →
        checkUpstreamDivergence u g =
          { allowed := true, message := str "Remote branch doesn't exist yet" }) ∧
      ((g [str "rev-parse", str "--verify",
          str "refs/remotes/origin/" ++ stripHeads u.refName]).success = true →
        (trimStr (g [str "rev-parse", str "--verify",
            str "refs/remotes/origin/" ++ stripHeads u.refName]).stdout ≠ u.oldSha →
          checkUpstreamDivergence u g =
            { allowed := false
              message := str "Upstream has diverged. Expected: " ++ u.oldSha.take 8 ++
                str ", Actual: " ++
                (trimStr (g [str "rev-parse", str "--verify",
                  str "refs/remotes/origin/" ++ stripHeads u.refName]).stdout).take 8 ++
                str ". Please fetch and rebase." }) ∧
        (trimStr (g [str "rev-parse", str "--verify",
            str "refs/remotes/origin/" ++ stripHeads u.refName]).stdout = u.oldSha →
          checkUpstreamDivergence u g =
            { allowed := true, message := str "Upstream in sync" }))) ∧
    ((validateBranch u.refName cfg).allowed = true →
      validateForcePush u cfg g =
        { allowed := true, message := str "Force push allowed", isForcePush := some true } →
      validateOne u cfg g =
        (if !(validateProtectedPaths u cfg g).allowed then
          Except.error (validateProtectedPaths u cfg g).message
        else Except.ok { update := u, isForcePush := true })) := by
  refine ⟨fun h => checkUpstreamDivergence_create u g h, fun h1 hsh => ?_, fun hb hfp => ?_⟩
  · have hrr := remoteRef_eq u.refName hsh
    unfold checkUpstreamDivergence
    rw [if_neg h1, hrr]
    constructor
    · intro hs
      simp [hs]
    · intro hs
      constructor
      · intro hne
        simp [hs, hne]
      · intro heq
        simp [hs, heq]
  · simp [validateOne, hb, hfp]

/-- C6 witness: the theorem applied to a concrete diverged update. -/
theorem c6_divergence_witness :
    checkUpstreamDivergence updFF gDiv =
      { allowed := false
        message := str "Upstream has diverged. Expected: " ++ updFF.oldSha.take 8 ++
          str ", Actual: " ++
          (trimStr (gDiv [str "rev-parse", str "--verify",
            str "refs/remotes/origin/" ++ stripHeads updFF.refName]).stdout).take 8 ++
          str ". Please fetch and rebase." } :=
  (((c6_divergence updFF cfgNoPolicy gDiv).2.1 (by decide) (by decide)).2
    (by decide)).1 (by decide)

/-- C7: an update with both oids all-zero whose ref passes branch
admission is accepted by Pass-1 unconditionally — the create branch of
the force-push check fires first (bypassing the deletion ban even under
`force_push = deny`), the divergence and protected-path checks also
accept — and Pass 2 forwards it as `git push origin --delete <branch>`
because new = zero selects the deletion invocation. -/
theorem c7_zero_zero_delete (u : RefUpdate) (cfg : RepoConfig) (g : GitExec)
    (h1 : u.oldSha = zeroSha) (h2 : u.newSha = zeroSha)
    (h3 : (validateBranch u.refName cfg).allowed = true) :
    validateOne u cfg g = Except.ok { update := u, isForcePush := false } ∧
    validateForcePush u cfg g = { allowed := true, message := str "New branch creation" } ∧
    checkUpstreamDivergence u g =
      { allowed := true, message := str "New branch - no divergence check" } ∧
    (validateProtectedPaths u cfg g).allowed = true ∧
    pushArgs u false = [str "push", str "origin", str "--delete", stripHeads u.refName] ∧
    (validateAndPush [u] { repoConfig := cfg, gitExec := g }).2 =
      [{ update := u, isForcePush := false, result := g (pushArgs u false) }] := by
  have hfp := validateForcePush_create u cfg g h1
  have hdv := checkUpstreamDivergence_create u g h1
  have hpp : (validateProtectedPaths u cfg g).allowed = true := by
    unfold validateProtectedPaths
    by_cases hc : cfg.protected_paths.length = 0
    · simp [hc]
    · simp [hc, h2]
  have hone : validateOne u cfg g = Except.ok { update := u, isForcePush := false } := by
    simp [validateOne, h3, hfp, hdv, hpp]
  have hpa : pushArgs u false = [str "push", str "origin", str "--delete", stripHeads u.refName] := by
    simp [pushArgs, h2]
  refine ⟨hone, hfp, hdv, hpp, hpa, ?_⟩
  have hp1 : passOne [u] cfg g = ([], [{ update := u, isForcePush := false }]) := by
    simp [passOne, hone]
  unfold validateAndPush
  simp only [hp1]
  rw [if_neg (by simp)]
  rw [passTwo]
  by_cases hs : (pushToUpstream u false g).allowed
  · simp [hs, passTwo]
  · simp [hs]

/-- C7 witness: the theorem at the concrete both-zero update under a
deny policy. -/
theorem c7_zero_zero_delete_witness :
    validateOne updZZ cfgNoPolicy gAllOk =
      Except.ok { update := updZZ, isForcePush := false } ∧
    validateForcePush updZZ cfgNoPolicy gAllOk =
      { allowed := true, message := str "New branch creation" } ∧
    checkUpstreamDivergence updZZ gAllOk =
      { allowed := true, message := str "New branch - no divergence check" } ∧
    (validateProtectedPaths updZZ cfgNoPolicy gAllOk).allowed = true ∧
    pushArgs updZZ false = [str "push", str "origin", str "--delete", stripHeads updZZ.refName] ∧
    (validateAndPush [updZZ] { repoConfig := cfgNoPolicy, gitExec := gAllOk }).2 =
      [{ update := updZZ, isForcePush := false, result := gAllOk (pushArgs updZZ false) }] :=
  c7_zero_zero_delete updZZ cfgNoPolicy gAllOk (by decide) (by decide) (by decide)

/-- C4 counterexample: for the ref `refs/heads/refs/heads/x` — a push
of the branch named `refs/heads/x` — the stripped branch name
`refs/heads/x` does match the allowed pattern `refs/heads/x`, yet the
code rejects the update, because `branchMatchesPattern` strips a
leading `refs/heads/` a second time and tests `x` against the
patterns.  This refutes the claim that the pattern test is applied to
the (once-)stripped branch name. -/
theorem c4_branch_admission_counterexample :
    startsHeads refNested = true ∧
    matchesAnyPattern (stripHeads refNested) [str "refs/heads/x"] = true ∧
    (validateBranch refNested cfgNested).allowed = false := by
  decide

/-- C4 (amended): branch admission rejects non-`refs/heads/` refs with
the exact message; otherwise the branch name is the ref with the
prefix stripped, and the admission decision and messages are as
claimed except that the pattern test is applied to the branch name
with a residual leading `refs/heads/`, if any, stripped once more
(`branchMatchesPattern` strips again). -/
theorem c4_branch_admission (refName : Str) (cfg : RepoConfig) :
    (startsHeads refName = false →
      validateBranch refName cfg =
        { allowed := false
          message := str "Only branch pushes allowed (refs/heads/*), got: " ++ refName }) ∧
    (startsHeads refName = true →
      (∀ pats, cfg.allowed_branches = some pats →
        ((matchesAnyPattern (stripHeads (stripHeads refName)) pats = false →
          validateBranch refName cfg =
            { allowed := false
              message := str "Branch '" ++ stripHeads refName ++
                str "' is not in allowed list. Allowed patterns: " ++
                joinWith (str ", ") pats }) ∧
        (matchesAnyPattern (stripHeads (stripHeads refName)) pats = true →
          validateBranch refName cfg = { allowed := true, message := str "Branch allowed" }))) ∧
      (cfg.allowed_branches = none →
        (∀ pats, cfg.blocked_branches = some pats →
          ((matchesAnyPattern (stripHeads (stripHeads refName)) pats = true →
            validateBranch refName cfg =
              { allowed := false
                message := str "Branch '" ++ stripHeads refName ++
                  str "' is blocked. Blocked patterns: " ++
                  joinWith (str ", ") pats }) ∧
          (matchesAnyPattern (stripHeads (stripHeads refName)) pats = false →
            validateBranch refName cfg = { allowed := true, message := str "Branch allowed" }))) ∧
        (cfg.blocked_branches = none →
          validateBranch refName cfg = { allowed := true, message := str "Branch allowed" }))) := by
  constructor
  · intro h
    simp [validateBranch, h]
  · intro h
    constructor
    · intro pats hA
      constructor
      · intro hm
        simp [validateBranch, h, hA, branchMatchesPattern, hm]
      · intro hm
        simp [validateBranch, h, hA, branchMatchesPattern, hm]
    · intro hA
      constructor
      · intro pats hB
        constructor
        · intro hm
          simp [validateBranch, h, hA, hB, branchMatchesPattern, hm]
        · intro hm
          simp [validateBranch, h, hA, hB, branchMatchesPattern, hm]
      · intro hB
        simp [validateBranch, h, hA, hB]

/-- C4 witness: the amended theorem applied to the nested ref, whose
double-stripped name `x` matches no allowed pattern, yielding the
rejection with the once-stripped name in the message. -/
theorem c4_branch_admission_witness :
    validateBranch refNested cfgNested =
      { allowed := false
        message := str "Branch '" ++ stripHeads refNested ++
          str "' is not in allowed list. Allowed patterns: " ++
          joinWith (str ", ") [str "refs/heads/x"] } :=
  ((((c4_branch_admission refNested cfgNested).2 (by decide)).1
    [str "refs/heads/x"] rfl).1 (by decide))

/-- C8 counterexample: the stdin line `a b c d` is not of the form
`<old> <new> <ref>` (it has four space-separated fields), yet the
parser does not terminate abnormally: it produces the update
(`a`,`b`,`c`) from the first three fields, ignoring the rest. -/
theorem c8_extra_fields_counterexample :
    parseLine (str "a b c d") =
      Except.ok { oldSha := str "a", newSha := str "b", refName := str "c" } ∧
    parsePreReceiveInput (str "a b c d") =
      Except.ok [{ oldSha := str "a", newSha := str "b", refName := str "c" }] := by
  decide

/-- C8 (amended): empty or whitespace-only stdin makes the hook exit 0
without validating or pushing, and such input parses to the empty
update list; a line whose first, second or third space-separated field
is missing or empty causes abnormal termination with the diagnostic
`Invalid pre-receive input line: <line>`; a line with three or more
non-empty leading fields parses to an update built from its first
three fields (extra fields are ignored rather than rejected). -/
theorem c8_pre_receive_input (stdin line : Str) (ctx : PreReceiveContext) :
    (trimStr stdin = [] →
      runPreReceiveHookCore stdin ctx = HookOutcome.exitOk ∧
      parsePreReceiveInput stdin = Except.ok []) ∧
    (trimStr stdin ≠ [] → ∀ e, parsePreReceiveInput stdin = Except.error e →
      runPreReceiveHookCore stdin ctx = HookOutcome.abort e) ∧
    (parseLine line = Except.error (str "Invalid pre-receive input line: " ++ line) ∨
      parseLine line = Except.ok
        { oldSha := (splitChar ' ' line).getD 0 []
          newSha := (splitChar ' ' line).getD 1 []
          refName := (splitChar ' ' line).getD 2 [] }) ∧
    (parseLine line = Except.error (str "Invalid pre-receive input line: " ++ line) ↔
      ((splitChar ' ' line).getD 0 [] = [] ∨ (splitChar ' ' line).getD 1 [] = [] ∨
        (splitChar ' ' line).getD 2 [] = [])) := by
  refine ⟨fun h => ⟨?_, ?_⟩, fun h e hp => ?_, ?_, ?_⟩
  · simp [runPreReceiveHookCore, h]
  · simp only [parsePreReceiveInput, h, splitChar]
    rfl
  · simp [runPreReceiveHookCore, h, hp]
  · by_cases hc : ((splitChar ' ' line).getD 0 [] = [] ∨ (splitChar ' ' line).getD 1 [] = [] ∨
        (splitChar ' ' line).getD 2 [] = [])
    · left
      simp only [List.getD, List.get?_eq_getElem?] at hc
      simp [parseLine, List.getD]
      tauto
    · right
      simp only [not_or, List.getD, List.get?_eq_getElem?] at hc
      simp [parseLine, List.getD, hc.1, hc.2.1, hc.2.2]
  · by_cases hc : ((splitChar ' ' line).getD 0 [] = [] ∨ (splitChar ' ' line).getD 1 [] = [] ∨
        (splitChar ' ' line).getD 2 [] = [])
    · simp only [List.getD, List.get?_eq_getElem?] at hc
      simp [parseLine, List.getD]
      tauto
    · simp only [not_or, List.getD, List.get?_eq_getElem?] at hc
      simp [parseLine, List.getD, hc.1, hc.2.1, hc.2.2]

/-- C8 witness: the amended theorem applied to whitespace-only stdin
and a two-field line, which the parser rejects with its diagnostic. -/
theorem c8_pre_receive_input_witness :
    (runPreReceiveHookCore (str "  \n ") ctxTag = HookOutcome.exitOk ∧
      parsePreReceiveInput (str "  \n ") = Except.ok []) ∧
    (parseLine (str "a b") =
        Except.error (str "Invalid pre-receive input line: " ++ str "a b") ↔
      ((splitChar ' ' (str "a b")).getD 0 [] = [] ∨
        (splitChar ' ' (str "a b")).getD 1 [] = [] ∨
        (splitChar ' ' (str "a b")).getD 2 [] = [])) :=
  ⟨(c8_pre_receive_input (str "  \n ") (str "a b") ctxTag).1 (by decide),
    (c8_pre_receive_input (str "  \n ") (str "a b") ctxTag).2.2.2⟩

theorem checkChangedFiles_eq (out : Str) (pats : List Str) :
    checkChangedFiles out pats =
      (if (nonEmptyLines out).filter (fun f => matchesAnyPattern f pats) = [] then
        { allowed := true, message := str "No protected path violations" }
      else
        { allowed := false
          message := str "Changes to protected paths detected:\n" ++
            joinWith (str "\n")
              (((nonEmptyLines out).filter (fun f => matchesAnyPattern f pats)).map
                (fun v => str "  - " ++ v)) }) := by
  simp only [checkChangedFiles, nonEmptyLines]
  cases hv : ((splitChar '\n' (trimStr out)).filter (fun l => l.length > 0)).filter
      (fun f => matchesAnyPattern f pats) with
  | nil => simp
  | cons a l => simp

/-- C5: for a non-delete update checked against a non-empty
protected-path list whose base ref resolves (and whose rev-list and
diff commands succeed): when `rev-list <new> --not origin/<base>`
yields no non-empty line the update is accepted with "No new commits
to check"; otherwise the decision is exactly `checkChangedFiles` of
the net name-only diff — rejected precisely when some diff path
matches some protected pattern, with a message listing exactly the
violating paths as `  - <path>` lines.  In particular an
introduce-then-revert push whose net diff is clean is accepted. -/
theorem c5_protected_paths (u : RefUpdate) (cfg : RepoConfig) (g : GitExec)
    (hpp : cfg.protected_paths ≠ [])
    (hnd : u.newSha ≠ zeroSha)
    (hbase : (g [str "rev-parse", str "--verify", str "origin/" ++ cfg.base_branch]).success = true)
    (hrl : (g [str "rev-list", u.newSha, str "--not",
      str "origin/" ++ cfg.base_branch]).success = true)
    (hdf : (g [str "diff", str "--name-only", str "origin/" ++ cfg.base_branch,
      u.newSha]).success = true) :
    (nonEmptyLines (g [str "rev-list", u.newSha, str "--not",
        str "origin/" ++ cfg.base_branch]).stdout = [] →
      validateProtectedPaths u cfg g =
        { allowed := true, message := str "No new commits to check" }) ∧
    (nonEmptyLines (g [str "rev-list", u.newSha, str "--not",
        str "origin/" ++ cfg.base_branch]).stdout ≠ [] →
      validateProtectedPaths u cfg g =
        checkChangedFiles (g [str "diff", str "--name-only",
          str "origin/" ++ cfg.base_branch, u.newSha]).stdout cfg.protected_paths ∧
      ((validateProtectedPaths u cfg g).allowed = false ↔
        ∃ f ∈ nonEmptyLines (g [str "diff", str "--name-only",
          str "origin/" ++ cfg.base_branch, u.newSha]).stdout,
          matchesAnyPattern f cfg.protected_paths = true) ∧
      ((nonEmptyLines (g [str "diff", str "--name-only",
          str "origin/" ++ cfg.base_branch, u.newSha]).stdout).filter
            (fun f => matchesAnyPattern f cfg.protected_paths) = [] →
        validateProtectedPaths u cfg g =
          { allowed := true, message := str "No protected path violations" }) ∧
      ((nonEmptyLines (g [str "diff", str "--name-only",
          str "origin/" ++ cfg.base_branch, u.newSha]).stdout).filter
            (fun f => matchesAnyPattern f cfg.protected_paths) ≠ [] →
        validateProtectedPaths u cfg g =
          { allowed := false
            message := str "Changes to protected paths detected:\n" ++
              joinWith (str "\n")
                (((nonEmptyLines (g [str "diff", str "--name-only",
                  str "origin/" ++ cfg.base_branch, u.newSha]).stdout).filter
                    (fun f => matchesAnyPattern f cfg.protected_paths)).map
                  (fun v => str "  - " ++ v)) })) := by
  have h0 : ¬ cfg.protected_paths.length = 0 := by
    simpa [List.length_eq_zero] using hpp
  have hred : validateProtectedPaths u cfg g =
      (if (nonEmptyLines (g [str "rev-list", u.newSha, str "--not",
          str "origin/" ++ cfg.base_branch]).stdout).length = 0 then
        { allowed := true, message := str "No new commits to check" }
      else checkChangedFiles (g [str "diff", str "--name-only",
        str "origin/" ++ cfg.base_branch, u.newSha]).stdout cfg.protected_paths) := by
    simp [validateProtectedPaths, nonEmptyLines, h0, hnd, hbase, hrl, hdf]
  constructor
  · intro hempty
    rw [hred, if_pos (by simpa [List.length_eq_zero] using hempty)]
  · intro hne
    have hcc : validateProtectedPaths u cfg g =
        checkChangedFiles (g [str "diff", str "--name-only",
          str "origin/" ++ cfg.base_branch, u.newSha]).stdout cfg.protected_paths := by
      rw [hred, if_neg (by simpa [List.length_eq_zero] using hne)]
    refine ⟨hcc, ?_, ?_, ?_⟩
    · rw [hcc, checkChangedFiles_eq]
      by_cases hv : (nonEmptyLines (g [str "diff", str "--name-only",
          str "origin/" ++ cfg.base_branch, u.newSha]).stdout).filter
            (fun f => matchesAnyPattern f cfg.protected_paths) = []
      · rw [if_pos hv]
        constructor
        · intro hfalse
          exact absurd hfalse (by simp)
        · rintro ⟨f, hf, hP⟩
          have h2 := List.filter_eq_nil_iff.mp hv f hf
          simp [hP] at h2
      · rw [if_neg hv]
        constructor
        · intro _
          rcases List.exists_mem_of_ne_nil _ hv with ⟨f, hf⟩
          rcases List.mem_filter.mp hf with ⟨hfl, hfp⟩
          exact ⟨f, hfl, hfp⟩
        · intro _
          rfl
    · intro hv
      rw [hcc, checkChangedFiles_eq, if_pos hv]
    · intro hv
      rw [hcc, checkChangedFiles_eq, if_neg hv]

/-- C5 witness: the theorem at a concrete update whose net diff touches
the protected `secret.txt`; the update is rejected listing exactly that
path. -/
theorem c5_protected_paths_witness :
    validateProtectedPaths updFF cfgProt gProt =
      { allowed := false
        message := str "Changes to protected paths detected:\n" ++
          joinWith (str "\n")
            (((nonEmptyLines (gProt [str "diff", str "--name-only",
              str "origin/" ++ cfgProt.base_branch, updFF.newSha]).stdout).filter
                (fun f => matchesAnyPattern f cfgProt.protected_paths)).map
              (fun v => str "  - " ++ v)) } :=
  ((c5_protected_paths updFF cfgProt gProt (by decide) (by decide) (by decide)
    (by decide) (by decide)).2 (by decide)).2.2.2 (by decide)

theorem globAux_congr : ∀ (f1 f2 : Nat) (p s : Str),
    p.length + s.length < f1 → p.length + s.length < f2 →
    globAux f1 p s = globAux f2 p s := by
  intro f1
  induction f1 with
  | zero =>
    intro f2 p s h1 h2
    omega
  | succ n ih =>
    intro f2 p s h1 h2
    cases f2 with
    | zero => omega
    | succ m =>
      cases p with
      | nil => simp [globAux]
      | cons a ps =>
        by_cases ha : a = '*'
        · subst ha
          cases ps with
          | nil =>
            cases s with
            | nil =>
              simp only [globAux, if_pos rfl]
              exact ih m [] []
                (by simp only [List.length_cons, List.length_nil] at h1 ⊢; omega)
                (by simp only [List.length_cons, List.length_nil] at h2 ⊢; omega)
            | cons c s' =>
              simp only [globAux, if_pos rfl]
              rw [ih m [] (c :: s')
                  (by simp only [List.length_cons, List.length_nil] at h1 ⊢; omega)
                  (by simp only [List.length_cons, List.length_nil] at h2 ⊢; omega),
                ih m ['*'] s'
                  (by simp only [List.length_cons, List.length_nil] at h1 ⊢; omega)
                  (by simp only [List.length_cons, List.length_nil] at h2 ⊢; omega)]
              simp
          | cons b ps' =>
            by_cases hb : b = '*'
            · subst hb
              cases s with
              | nil =>
                simp only [globAux, if_pos rfl]
                exact ih m ps' []
                  (by simp only [List.length_cons, List.length_nil] at h1 ⊢; omega)
                  (by simp only [List.length_cons, List.length_nil] at h2 ⊢; omega)
              | cons c s' =>
                simp only [globAux, if_pos rfl]
                rw [ih m ps' (c :: s')
                    (by simp only [List.length_cons] at h1 ⊢; omega)
                    (by simp only [List.length_cons] at h2 ⊢; omega),
                  ih m ('*' :: '*' :: ps') s'
                    (by simp only [List.length_cons] at h1 ⊢; omega)
                    (by simp only [List.length_cons] at h2 ⊢; omega)]
                simp
            · cases s with
              | nil =>
                simp only [globAux, if_pos rfl, if_neg hb]
                exact ih m (b :: ps') []
                  (by simp only [List.length_cons, List.length_nil] at h1 ⊢; omega)
                  (by simp only [List.length_cons, List.length_nil] at h2 ⊢; omega)
              | cons c s' =>
                simp only [globAux, if_pos rfl, if_neg hb]
                rw [ih m (b :: ps') (c :: s')
                    (by simp only [List.length_cons] at h1 ⊢; omega)
                    (by simp only [List.length_cons] at h2 ⊢; omega),
                  ih m ('*' :: b :: ps') s'
                    (by simp only [List.length_cons] at h1 ⊢; omega)
                    (by simp only [List.length_cons] at h2 ⊢; omega)]
                simp
        · by_cases hq : a = '?'
          · subst hq
            cases s with
            | nil => simp [globAux]
            | cons c s' =>
              simp only [globAux, if_neg ha, if_pos rfl]
              rw [ih m ps s'
                  (by simp only [List.length_cons] at h1 ⊢; omega)
                  (by simp only [List.length_cons] at h2 ⊢; omega)]
          · cases s with
            | nil => simp [globAux, ha, hq]
            | cons c s' =>
              simp only [globAux, if_neg ha, if_neg hq]
              rw [ih m ps s'
                  (by simp only [List.length_cons] at h1 ⊢; omega)
                  (by simp only [List.length_cons] at h2 ⊢; omega)]

theorem globMatch_eq_fuel (f : Nat) (p s : Str) (h : p.length + s.length < f) :
    globMatch p s = globAux f p s :=
  globAux_congr (p.length + s.length + 1) f p s (by omega) h

theorem gm_star2_nil (ps : Str) : globMatch ('*' :: '*' :: ps) [] = globMatch ps [] := by
  have h : globAux (('*' :: '*' :: ps).length + ([] : Str).length) ps [] = globMatch ps [] :=
    (globMatch_eq_fuel _ _ _ (by simp only [List.length_cons, List.length_nil]; omega)).symm
  calc globMatch ('*' :: '*' :: ps) []
      = globAux (('*' :: '*' :: ps).length + ([] : Str).length) ps [] := rfl
    _ = globMatch ps [] := h

theorem gm_star2_cons (ps : Str) (c : Char) (s : Str) :
    globMatch ('*' :: '*' :: ps) (c :: s) =
      (globMatch ps (c :: s) || globMatch ('*' :: '*' :: ps) s) := by
  have h1 : globAux (('*' :: '*' :: ps).length + (c :: s).length) ps (c :: s) =
      globMatch ps (c :: s) :=
    (globMatch_eq_fuel _ _ _ (by simp only [List.length_cons]; omega)).symm
  have h2 : globAux (('*' :: '*' :: ps).length + (c :: s).length) ('*' :: '*' :: ps) s =
      globMatch ('*' :: '*' :: ps) s :=
    (globMatch_eq_fuel _ _ _ (by simp only [List.length_cons]; omega)).symm
  calc globMatch ('*' :: '*' :: ps) (c :: s)
      = (globAux (('*' :: '*' :: ps).length + (c :: s).length) ps (c :: s) ||
          globAux (('*' :: '*' :: ps).length + (c :: s).length) ('*' :: '*' :: ps) s) := rfl
    _ = (globMatch ps (c :: s) || globMatch ('*' :: '*' :: ps) s) := by rw [h1, h2]

theorem gm_star1_nil (b : Char) (hb : b ≠ '*') (ps : Str) :
    globMatch ('*' :: b :: ps) [] = globMatch (b :: ps) [] := by
  show globAux (('*' :: b :: ps).length + ([] : Str).length + 1) ('*' :: b :: ps) [] = _
  rw [globAux.eq_3, if_pos rfl, if_neg hb,
    ← globMatch_eq_fuel _ _ _ (by simp only [List.length_cons, List.length_nil]; omega)]

theorem gm_star1_cons (b : Char) (hb : b ≠ '*') (ps : Str) (c : Char) (s : Str) :
    globMatch ('*' :: b :: ps) (c :: s) =
      (globMatch (b :: ps) (c :: s) || (c ≠ '/' && globMatch ('*' :: b :: ps) s)) := by
  show globAux (('*' :: b :: ps).length + (c :: s).length + 1) ('*' :: b :: ps) (c :: s) = _
  rw [globAux.eq_4, if_pos rfl, if_neg hb,
    ← globMatch_eq_fuel _ _ _ (by simp only [List.length_cons]; omega),
    ← globMatch_eq_fuel _ _ _ (by simp only [List.length_cons]; omega)]

theorem gm_quest_nil (ps : Str) : globMatch ('?' :: ps) [] = false := by
  cases ps with
  | nil =>
    show globAux ((['?'] : Str).length + ([] : Str).length + 1) ['?'] [] = _
    rw [globAux.eq_5, if_neg (by decide : ¬('?' : Char) = '*'), if_pos rfl]
  | cons b ps' =>
    show globAux (((('?' : Char) :: b :: ps') : Str).length + ([] : Str).length + 1) _ _ = _
    rw [globAux.eq_3, if_neg (by decide : ¬('?' : Char) = '*'), if_pos rfl]

theorem gm_quest_cons (ps : Str) (c : Char) (s : Str) :
    globMatch ('?' :: ps) (c :: s) = ((c ≠ '/') && globMatch ps s) := by
  cases ps with
  | nil =>
    show globAux ((['?'] : Str).length + (c :: s).length + 1) ['?'] (c :: s) = _
    rw [globAux.eq_6, if_neg (by decide : ¬('?' : Char) = '*'), if_pos rfl,
      ← globMatch_eq_fuel _ _ _ (by simp only [List.length_cons, List.length_nil]; omega)]
  | cons b ps' =>
    show globAux (((('?' : Char) :: b :: ps') : Str).length + (c :: s).length + 1) _ _ = _
    rw [globAux.eq_4, if_neg (by decide : ¬('?' : Char) = '*'), if_pos rfl,
      ← globMatch_eq_fuel _ _ _ (by simp only [List.length_cons]; omega)]

theorem gm_lit_nil (a : Char) (ha : a ≠ '*') (ps : Str) :
    globMatch (a :: ps) [] = false := by
  by_cases hq : a = '?'
  · subst hq
    exact gm_quest_nil ps
  · cases ps with
    | nil =>
      show globAux (([a] : Str).length + ([] : Str).length + 1) [a] [] = _
      rw [globAux.eq_5, if_neg ha, if_neg hq]
    | cons b ps' =>
      show globAux (((a :: b :: ps') : Str).length + ([] : Str).length + 1) _ _ = _
      rw [globAux.eq_3, if_neg ha, if_neg hq]

theorem gm_lit_cons (a : Char) (ha : a ≠ '*') (hq : a ≠ '?') (ps : Str) (c : Char) (s : Str) :
    globMatch (a :: ps) (c :: s) = ((a = c) && globMatch ps s) := by
  cases ps with
  | nil =>
    show globAux (([a] : Str).length + (c :: s).length + 1) [a] (c :: s) = _
    rw [globAux.eq_6, if_neg ha, if_neg hq,
      ← globMatch_eq_fuel _ _ _ (by simp only [List.length_cons, List.length_nil]; omega)]
  | cons b ps' =>
    show globAux (((a :: b :: ps') : Str).length + (c :: s).length + 1) _ _ = _
    rw [globAux.eq_4, if_neg ha, if_neg hq,
      ← globMatch_eq_fuel _ _ _ (by simp only [List.length_cons]; omega)]

theorem globMatch_star2_of_nil (ps : Str) (h : globMatch ps [] = true) :
    ∀ s, globMatch ('*' :: '*' :: ps) s = true := by
  intro s
  induction s with
  | nil => rw [gm_star2_nil]; exact h
  | cons c s ih => rw [gm_star2_cons, ih]; simp

theorem globMatch_star2_all (s : Str) : globMatch ['*', '*'] s = true :=
  globMatch_star2_of_nil [] (by decide) s

theorem globMatch_star3_all (s : Str) : globMatch ['*', '*', '*'] s = true :=
  globMatch_star2_of_nil ['*'] (by decide) s

theorem globMatch_absorb_bounded : ∀ (N : Nat) (q ext s : Str), q.length + s.length ≤ N →
    globMatch (q ++ '*' :: '*' :: ext) s = true → globMatch (q ++ ['*', '*']) s = true := by
  intro N
  induction N with
  | zero =>
    intro q ext s hN h
    have hq : q = [] := by
      cases q with
      | nil => rfl
      | cons a q' => simp only [List.length_cons] at hN; omega
    subst hq
    exact globMatch_star2_all s
  | succ n ih =>
    intro q ext s hN h
    cases q with
    | nil => exact globMatch_star2_all s
    | cons a q' =>
      by_cases ha : a = '*'
      · subst ha
        cases q' with
        | nil => exact globMatch_star3_all s
        | cons b q'' =>
          by_cases hb : b = '*'
          · subst hb
            rw [List.cons_append, List.cons_append] at h ⊢
            cases s with
            | nil =>
              rw [gm_star2_nil] at h ⊢
              exact ih q'' ext []
                (by simp only [List.length_cons, List.length_nil] at hN ⊢; omega) h
            | cons c s' =>
              rw [gm_star2_cons] at h ⊢
              rcases Bool.or_eq_true_iff.mp h with h' | h'
              · rw [ih q'' ext (c :: s')
                  (by simp only [List.length_cons] at hN ⊢; omega) h']
                simp
              · have h2 := ih ('*' :: '*' :: q'') ext s'
                  (by simp only [List.length_cons] at hN ⊢; omega)
                  (by rw [List.cons_append, List.cons_append]; exact h')
                rw [List.cons_append, List.cons_append] at h2
                rw [h2]
                simp
          · rw [List.cons_append, List.cons_append] at h ⊢
            cases s with
            | nil =>
              rw [gm_star1_nil b hb] at h ⊢
              have h2 := ih (b :: q'') ext []
                (by simp only [List.length_cons, List.length_nil] at hN ⊢; omega)
                (by rw [List.cons_append]; exact h)
              rw [List.cons_append] at h2
              exact h2
            | cons c s' =>
              rw [gm_star1_cons b hb] at h ⊢
              rcases Bool.or_eq_true_iff.mp h with h' | h'
              · have h2 := ih (b :: q'') ext (c :: s')
                  (by simp only [List.length_cons] at hN ⊢; omega)
                  (by rw [List.cons_append]; exact h')
                rw [List.cons_append] at h2
                rw [h2]
                simp
              · rcases Bool.and_eq_true_iff.mp h' with ⟨hc, h''⟩
                have h2 := ih ('*' :: b :: q'') ext s'
                  (by simp only [List.length_cons] at hN ⊢; omega)
                  (by rw [List.cons_append, List.cons_append]; exact h'')
                rw [List.cons_append, List.cons_append] at h2
                rw [h2, hc]
                simp
      · by_cases hq : a = '?'
        · subst hq
          rw [List.cons_append] at h ⊢
          cases s with
          | nil => rw [gm_quest_nil] at h; cases h
          | cons c s' =>
            rw [gm_quest_cons] at h ⊢
            rcases Bool.and_eq_true_iff.mp h with ⟨hc, h''⟩
            rw [hc, ih q' ext s' (by simp only [List.length_cons] at hN ⊢; omega) h'']
            simp
        · rw [List.cons_append] at h ⊢
          cases s with
          | nil => rw [gm_lit_nil a ha] at h; cases h
          | cons c s' =>
            rw [gm_lit_cons a ha hq] at h ⊢
            rcases Bool.and_eq_true_iff.mp h with ⟨hc, h''⟩
            rw [hc, ih q' ext s' (by simp only [List.length_cons] at hN ⊢; omega) h'']
            simp

theorem globMatch_absorb (q ext s : Str)
    (h : globMatch (q ++ '*' :: '*' :: ext) s = true) :
    globMatch (q ++ ['*', '*']) s = true :=
  globMatch_absorb_bounded (q.length + s.length) q ext s (Nat.le_refl _) h

/-- C9: matching a path against a single protected-path pattern with a
trailing `/` is equivalent to matching the pattern with the trailing
`/` replaced by `/**`, or matching the bare pattern without its
trailing `/` — for every trailing-slash pattern, including those
ending in `**/` that the code's normalization guard skips (for those,
`q**` subsumes both `q**/` and `q**/**`, so the equivalence still
holds). -/
theorem c9_trailing_slash_normalization (p s : Str) (hp : endsWithStr p (str "/") = true) :
    matchesAnyPattern s [p] =
      (globMatch (p.dropLast ++ str "/**") s || globMatch p.dropLast s) := by
  have hone : matchesAnyPattern s [p] = matchesOne s p := by
    simp [matchesAnyPattern]
  rw [hone]
  by_cases h2 : endsWithStr p (str "**/") = true
  · obtain ⟨q, hq⟩ : ∃ t, t ++ str "**/" = p :=
      List.isSuffixOf_iff_suffix.mp h2
    subst hq
    have hdl : (q ++ str "**/").dropLast = q ++ str "**" := by
      have hsplit : q ++ str "**/" = (q ++ str "**") ++ ['/'] := by
        rw [List.append_assoc]
        rfl
      rw [hsplit, List.dropLast_concat]
    have habs1 : globMatch (q ++ str "**/") s = true →
        globMatch (q ++ str "**") s = true := by
      intro h
      exact globMatch_absorb q ['/'] s h
    have habs2 : globMatch ((q ++ str "**") ++ str "/**") s = true →
        globMatch (q ++ str "**") s = true := by
      intro h
      rw [List.append_assoc] at h
      exact globMatch_absorb q ('/' :: '*' :: '*' :: []) s h
    simp only [matchesOne, hp, h2, hdl, Bool.true_and, Bool.not_true, Bool.and_false,
      Bool.false_eq_true, if_false]
    by_cases hB : globMatch (q ++ str "**") s = true
    · simp [hB]
    · have hA : globMatch (q ++ str "**/") s = false := by
        cases hAv : globMatch (q ++ str "**/") s
        · rfl
        · exact absurd (habs1 hAv) hB
      have hC : globMatch ((q ++ str "**") ++ str "/**") s = false := by
        cases hCv : globMatch ((q ++ str "**") ++ str "/**") s
        · rfl
        · exact absurd (habs2 hCv) hB
      have hB' : globMatch (q ++ str "**") s = false := by
        cases hBv : globMatch (q ++ str "**") s
        · rfl
        · exact absurd hBv hB
      rw [hA, hB', hC]
  · have h2f : endsWithStr p (str "**/") = false := by
      rwa [Bool.not_eq_true] at h2
    simp [matchesOne, hp, h2f]

/-- C9 witness: the theorem at the pattern `nix/` and the path
`nix/flake.nix`, evaluating both sides. -/
theorem c9_trailing_slash_normalization_witness :
    matchesAnyPattern (str "nix/flake.nix") [str "nix/"] =
      (globMatch ((str "nix/").dropLast ++ str "/**") (str "nix/flake.nix") ||
        globMatch (str "nix/").dropLast (str "nix/flake.nix")) :=
  c9_trailing_slash_normalization (str "nix/") (str "nix/flake.nix") (by decide)

theorem sepSpecAt_nil (j : Nat) : sepSpecAt [] j = none := by
  simp [sepSpecAt, str]

theorem sepSpecAt_succ (a : Char) (s : Str) (j : Nat) :
    sepSpecAt (a :: s) (j + 1) = sepSpecAt s j := by
  simp [sepSpecAt]

theorem sepSpecAt_single (a : Char) (j : Nat) : sepSpecAt [a] j = none := by
  cases j with
  | zero => simp [sepSpecAt, str]
  | succ j' => rw [sepSpecAt_succ]; exact sepSpecAt_nil j'

theorem sepSpecAt_zero (a b : Char) (rest : Str) :
    sepSpecAt (a :: b :: rest) 0 =
      (if a = '\r' ∧ b = '\n' ∧ rest.take 2 = str "\r\n" then some 4
       else if a = '\n' ∧ b = '\n' then some 2
       else none) := by
  have h4 : ((a :: b :: rest).take 4 = str "\r\n\r\n") ↔
      (a = '\r' ∧ b = '\n' ∧ rest.take 2 = str "\r\n") := by
    simp [show (str "\r\n\r\n") = '\r' :: '\n' :: '\r' :: '\n' :: [] from rfl,
      show (str "\r\n") = '\r' :: '\n' :: [] from rfl, List.take_succ_cons]
  have h2 : ((a :: b :: rest).take 2 = str "\n\n") ↔ (a = '\n' ∧ b = '\n') := by
    simp [show (str "\n\n") = '\n' :: '\n' :: [] from rfl, List.take_succ_cons]
  simp only [sepSpecAt, List.drop_zero, h4, h2]

theorem scanSep_spec (output : Str) :
    (match scanSep output with
     | some p => sepSpecAt output p.1 = some p.2 ∧ ∀ j, j < p.1 → sepSpecAt output j = none
     | none => ∀ j, sepSpecAt output j = none) := by
  induction output using scanSep.induct with
  | case1 =>
    simp only [scanSep]
    exact sepSpecAt_nil
  | case2 head =>
    simp only [scanSep]
    exact sepSpecAt_single head
  | case3 a b rest hcond =>
    have hc : a = '\r' ∧ b = '\n' ∧ rest.take 2 = str "\r\n" := by
      simpa [and_assoc] using hcond
    simp only [scanSep, hcond, if_true]
    refine ⟨?_, ?_⟩
    · rw [sepSpecAt_zero, if_pos hc]
    · intro j hj
      omega
  | case4 a b rest hcond1 hcond2 =>
    have hc1 : ¬ (a = '\r' ∧ b = '\n' ∧ rest.take 2 = str "\r\n") := by
      simpa [and_assoc] using hcond1
    have hc2 : a = '\n' ∧ b = '\n' := by
      simpa using hcond2
    simp only [scanSep, hcond1, hcond2, Bool.false_eq_true, if_false, if_true]
    refine ⟨?_, ?_⟩
    · rw [sepSpecAt_zero, if_neg hc1, if_pos hc2]
    · intro j hj
      omega
  | case5 a b rest hcond1 hcond2 ih =>
    have hc1 : ¬ (a = '\r' ∧ b = '\n' ∧ rest.take 2 = str "\r\n") := by
      simpa [and_assoc] using hcond1
    have hc2 : ¬ (a = '\n' ∧ b = '\n') := by
      simpa using hcond2
    have hzero : sepSpecAt (a :: b :: rest) 0 = none := by
      rw [sepSpecAt_zero, if_neg hc1, if_neg hc2]
    simp only [scanSep, hcond1, hcond2, Bool.false_eq_true, if_false]
    cases hsc : scanSep (b :: rest) with
    | none =>
      simp only [hsc] at ih
      simp only [Option.map_none']
      intro j
      cases j with
      | zero => exact hzero
      | succ j' => rw [sepSpecAt_succ]; exact ih j'
    | some p =>
      simp only [hsc] at ih
      simp only [Option.map_some']
      refine ⟨?_, ?_⟩
      · rw [sepSpecAt_succ]
        exact ih.1
      · intro j hj
        cases j with
        | zero => exact hzero
        | succ j' =>
          rw [sepSpecAt_succ]
          exact ih.2 j' (by omega)

theorem foldl_headers_no_status (lines : List Str) :
    ∀ acc : Option Int × Str × List (Str × Str),
    (∀ l ∈ lines, lineIsStatus l = false) →
    ((lines.foldl processHeaderLine acc).1 = acc.1 ∧
      (lines.foldl processHeaderLine acc).2.1 = acc.2.1) := by
  induction lines with
  | nil =>
    intro acc h
    exact ⟨rfl, rfl⟩
  | cons l rest ih =>
    intro acc h
    rw [List.foldl_cons]
    have hstep : (processHeaderLine acc l).1 = acc.1 ∧
        (processHeaderLine acc l).2.1 = acc.2.1 := by
      have hl : lineIsStatus l = false := h l (by simp)
      by_cases hlen : l.length = 0
      · simp [processHeaderLine, hlen]
      · cases hcol : indexOfChar ':' l with
        | none => simp [processHeaderLine, hlen, hcol]
        | some i =>
          have hname : ¬ toLowerStr (trimStr (l.take i)) = str "status" := by
            simpa [lineIsStatus, hlen, hcol] using hl
          simp [processHeaderLine, hlen, hcol, hname]
    obtain ⟨h1, h2⟩ := ih (processHeaderLine acc l) (fun l' hl' => h l' (by simp [hl']))
    exact ⟨h1.trans hstep.1, h2.trans hstep.2⟩

/-- C10: the CGI response parser splits at the first occurrence of
CRLFCRLF (consuming 4 bytes) or LFLF (consuming 2), whichever occurs
first; with no separator the whole output is headers and the body is
empty; header lines parse as `Name: value` with case-insensitively
lower-cased names, empty and colonless lines are skipped, non-Status
headers pass through into the header map, a `Status` header whose
value begins with a code and reason sets both, and status defaults to
`200 OK` when no Status header is present. -/
theorem c10_cgi_response (output : Str) (acc : Option Int × Str × List (Str × Str))
    (line : Str) :
    (match scanSep output with
     | some p => sepSpecAt output p.1 = some p.2 ∧ ∀ j, j < p.1 → sepSpecAt output j = none
     | none => ∀ j, sepSpecAt output j = none) ∧
    ((parseCgiResponse output).body =
      (match scanSep output with
       | some p => output.drop (p.1 + p.2)
       | none => [])) ∧
    ((∀ l ∈ splitLinesRN (output.take
        (match scanSep output with
         | some p => p.1
         | none => output.length)), lineIsStatus l = false) →
      (parseCgiResponse output).status = some 200 ∧
      (parseCgiResponse output).statusText = str "OK") ∧
    (processHeaderLine acc [] = acc) ∧
    (indexOfChar ':' line = none → processHeaderLine acc line = acc) ∧
    (∀ j, indexOfChar ':' line = some j →
      toLowerStr (trimStr (line.take j)) ≠ str "status" →
      processHeaderLine acc line =
        (acc.1, acc.2.1, headersSet acc.2.2 (toLowerStr (trimStr (line.take j)))
          (trimStr (line.drop (j + 1))))) ∧
    (∀ j, indexOfChar ':' line = some j →
      toLowerStr (trimStr (line.take j)) = str "status" →
      processHeaderLine acc line =
        ((if (splitChar ' ' (trimStr (line.drop (j + 1)))).getD 0 [] ≠ [] then
            jsParseInt ((splitChar ' ' (trimStr (line.drop (j + 1)))).getD 0 [])
          else acc.1),
          (if joinWith (str " ") ((splitChar ' ' (trimStr (line.drop (j + 1)))).drop 1) = [] then
            str "OK"
          else joinWith (str " ") ((splitChar ' ' (trimStr (line.drop (j + 1)))).drop 1)),
          acc.2.2)) := by
  refine ⟨scanSep_spec output, ?_, ?_, ?_, ?_, ?_, ?_⟩
  · cases hsc : scanSep output with
    | some p => simp [parseCgiResponse, hsc]
    | none => simp [parseCgiResponse, hsc, List.drop_length]
  · intro h
    cases hsc : scanSep output with
    | some p =>
      simp only [hsc] at h
      have hf := foldl_headers_no_status
        (splitLinesRN (output.take p.1)) (some 200, str "OK", []) h
      constructor
      · simpa [parseCgiResponse, hsc] using hf.1
      · simpa [parseCgiResponse, hsc] using hf.2
    | none =>
      simp only [hsc] at h
      have hf := foldl_headers_no_status
        (splitLinesRN (output.take output.length)) (some 200, str "OK", []) h
      constructor
      · simpa [parseCgiResponse, hsc] using hf.1
      · simpa [parseCgiResponse, hsc] using hf.2
  · simp [processHeaderLine]
  · intro hcol
    by_cases hlen : line.length = 0
    · simp [processHeaderLine, hlen]
    · simp [processHeaderLine, hlen, hcol]
  · intro j hcol hname
    have hlen : ¬ line.length = 0 := by
      intro h0
      rw [List.length_eq_zero.mp h0] at hcol
      cases hcol
    simp [processHeaderLine, hlen, hcol, hname]
  · intro j hcol hname
    have hlen : ¬ line.length = 0 := by
      intro h0
      rw [List.length_eq_zero.mp h0] at hcol
      cases hcol
    simp [processHeaderLine, hlen, hcol, hname]

/-- C10 witness: the theorem applied to a concrete output without a
Status header (defaulting to 200 OK), plus its Status-line clause at a
concrete `Status: 404 Not Found` header line. -/
theorem c10_cgi_response_witness :
    ((parseCgiResponse cgiNoStatus).status = some 200 ∧
      (parseCgiResponse cgiNoStatus).statusText = str "OK") ∧
    processHeaderLine (some 200, str "OK", []) (str "Status: 404 Not Found") =
      (some 404, str "Not Found", []) := by
  constructor
  · exact (c10_cgi_response cgiNoStatus (some 200, str "OK", []) []).2.2.1 (by decide)
  · have h := (c10_cgi_response cgiNoStatus (some 200, str "OK", [])
      (str "Status: 404 Not Found")).2.2.2.2.2.2 6 (by decide) (by decide)
    rw [h]
    decide

end GitProxy
